import Mathlib

/-!
Verification of the agent-vault credential-issuance-and-verification workflow.

The development shallowly embeds the original logic of the repository:
the MCP vault access gate (`requestSecretAccess` and its helpers from the
MCP server), the credential service (`issueAgentCredential`,
`verifyAgentAuthorization`), the ledger circuits of the compiled contract,
the secret store (AES-CBC with PKCS7 padding, with the block cipher kept
abstract), and the agent CRUD HTTP handlers (POST and PATCH).

External effects (the Midnight contract calls, the GitHub API, database
failures, random generation, clocks) are passed in explicitly as
environment records, so every function here is a pure, executable Lean
definition mirroring the source control flow.
-/

namespace AgentVault

/-- A single quote character, used when reproducing source message strings. -/
def sq : String := String.singleton (Char.ofNat 39)

/-- Executable check that `needle` occurs as a contiguous segment of `hay`. -/
def containsSegL (needle hay : List Char) : Bool :=
  (List.range (hay.length + 1)).any (fun i => needle.isPrefixOf (hay.drop i))

/-- Executable check that `needle` occurs as a contiguous segment of `hay`. -/
def containsSeg (needle hay : String) : Bool :=
  containsSegL needle.data hay.data

/-- Whether some 8-character contiguous segment of `secret` occurs verbatim
inside `v` (the formal reading of "a part of the raw secret persists"). -/
def sharesSeg8 (secret v : String) : Bool :=
  (List.range (secret.data.length + 1)).any (fun i =>
    ((secret.data.drop i).take 8).length = 8 && containsSegL ((secret.data.drop i).take 8) v.data)

/-- Lower-case hexadecimal digits, the alphabet of a generated agent secret
(`randomBytes(32).toString` with hex encoding). -/
def hexChar (c : Char) : Bool := "0123456789abcdef".data.contains c

/-! ## MCP vault access gate (server.ts, `AgentVaultMCPServer`) -/

/-- One encrypted secret of the vault file (interface `VaultSecret`). -/
structure VaultSecret where
  id : String
  name : String
  encryptedValue : String
  iv : String
  provider : String
  createdAt : String
  deriving Repr, DecidableEq

/-- The vault file contents (interface `VaultStorage`). -/
structure VaultStorage where
  secrets : List VaultSecret
  masterKey : String
  deriving Repr, DecidableEq

/-- Parameters of the `request_secret_access` MCP tool. -/
structure AccessParams where
  secretName : String
  agentProof : String
  action : String
  deriving Repr, DecidableEq

/-- The JSON payload returned by `requestSecretAccess`: a success flag, the
optional downstream action result, and the optional error message. -/
structure AccessResponse (α : Type) where
  success : Bool
  actionResult : Option α
  error : Option String
  deriving Repr, DecidableEq

/-- External collaborators of the MCP server: the contract call
`callTx.proveAuthorization` (which either completes or throws a message)
and the GitHub API (token, method, endpoint to result or thrown message). -/
structure McpEnv (α : Type) where
  proveAuth : String → Except String Unit
  github : String → String → String → Except String α

/-- Dispatch of the `action` parameter to a GitHub method/endpoint pair,
mirroring the two recognised actions of `requestSecretAccess`. -/
def githubRoute (action : String) : Option (String × String) :=
  if action = "github_get_user" then some ("GET", "/user")
  else if action = "github_list_repos" then some ("GET", "/user/repos")
  else none

/-- The message thrown when the named secret is missing from the vault:
`Secret '<name>' not found in vault`. -/
def secretNotFoundMsg (name : String) : String :=
  "Secret " ++ sq ++ name ++ sq ++ " not found in vault"

/-- Result of a `requestSecretAccess` call: the JSON response plus the list
of contract circuit invocations (name, arguments) attempted during the call. -/
structure AccessResult (α : Type) where
  resp : AccessResponse α
  invoked : List (String × List String)
  deriving Repr, DecidableEq

/-- Stage of `requestSecretAccess` after the secret was found and decrypted:
dispatch the action and run it against the GitHub API with the decrypted
token; an unknown action or a failing API call throws (is caught and
reported with a `simulateAttack` attempt). -/
def runAction {α : Type} (env : McpEnv α) (proof : String)
    (route : Option (String × String)) (token action : String) : AccessResult α :=
  match route with
  | none =>
      ⟨⟨false, none, some ("Unknown action: " ++ action)⟩,
        [("proveAuthorization", [proof]), ("simulateAttack", [])]⟩
  | some me =>
      match env.github token me.1 me.2 with
      | .ok r => ⟨⟨true, some r, none⟩, [("proveAuthorization", [proof])]⟩
      | .error msg =>
          ⟨⟨false, none, some msg⟩,
            [("proveAuthorization", [proof]), ("simulateAttack", [])]⟩

/-- Stage of `requestSecretAccess` after a successful proof verification:
look the named secret up; a missing secret throws (caught, reported with a
`simulateAttack` attempt), otherwise decrypt it and run the action. -/
def afterAuth {α : Type} (env : McpEnv α) (dec : String → String → String)
    (found : Option VaultSecret) (proof secretName action : String) : AccessResult α :=
  match found with
  | none =>
      ⟨⟨false, none, some (secretNotFoundMsg secretName)⟩,
        [("proveAuthorization", [proof]), ("simulateAttack", [])]⟩
  | some s =>
      runAction env proof (githubRoute action) (dec s.encryptedValue s.iv) action

/-- Shallow embedding of `requestSecretAccess`: verify the agent proof on the
contract, find the named secret, decrypt it with `dec`, run the requested
GitHub action, and return only the action result.  Any thrown error is
caught; the handler then attempts a `simulateAttack` contract call (whose
own failure is ignored) and returns the thrown message as the error field. -/
def requestSecretAccess {α : Type} (env : McpEnv α) (dec : String → String → String)
    (vault : VaultStorage) (p : AccessParams) : AccessResult α :=
  match env.proveAuth p.agentProof with
  | .error m =>
      ⟨⟨false, none, some m⟩, [("proveAuthorization", [p.agentProof]), ("simulateAttack", [])]⟩
  | .ok _ =>
      afterAuth env dec (vault.secrets.find? (fun s => s.name == p.secretName))
        p.agentProof p.secretName p.action

/-! ## Relational store rows (lib/db.ts shapes, restricted to the columns
the credential service writes or reads) -/

/-- A row of the `credentials` table as written by `issueAgentCredential`
(the JSON `metadata` column is modelled as its key/value pairs, booleans
rendered as `"true"`/`"false"`). -/
structure CredentialRow where
  id : String
  agent_id : String
  credential_hash : String
  zk_proof : String
  midnight_tx_hash : String
  status : String
  metadata : List (String × String)
  deriving Repr, DecidableEq

/-- A row of the `audit_logs` table as written by `issueAgentCredential`. -/
structure AuditLogRow where
  agent_id : String
  action : String
  resource : String
  result : String
  midnight_tx_hash : String
  metadata : List (String × String)
  deriving Repr, DecidableEq

/-- A row of the `proof_verifications` table as written by
`verifyAgentAuthorization`. -/
structure ProofVerificationRow where
  credential_id : String
  verification_result : Bool
  zk_proof : String
  midnight_tx_hash : String
  metadata : List (String × String)
  deriving Repr, DecidableEq

/-- All strings persisted by a `credentials` row (column values plus the
keys and values of the serialised metadata object). -/
def CredentialRow.storedStrings (r : CredentialRow) : List String :=
  [r.id, r.agent_id, r.credential_hash, r.zk_proof, r.midnight_tx_hash, r.status]
    ++ r.metadata.map Prod.fst ++ r.metadata.map Prod.snd

/-- All strings persisted by an `audit_logs` row. -/
def AuditLogRow.storedStrings (r : AuditLogRow) : List String :=
  [r.agent_id, r.action, r.resource, r.result, r.midnight_tx_hash]
    ++ r.metadata.map Prod.fst ++ r.metadata.map Prod.snd

/-! ## Credential service (midnight.ts) -/

/-- Environment of `issueAgentCredential`: everything the function obtains
from outside — the contract availability probe, the on-chain issuance
outcome, the database-generated row id, the clock, and whether each of the
two inserts fails (a thrown database error). -/
structure IssueEnv where
  contractAvailable : Bool
  onchainIssueOk : Bool
  onchainTxHash : Option String
  credId : String
  nowMillis : Nat
  isoNow : String
  credInsertFails : Bool
  auditInsertFails : Bool
  deriving Repr, DecidableEq

/-- The record returned by `issueAgentCredential` (interface
`MidnightCredential`). -/
structure MidnightCredential where
  credentialHash : String
  zkProof : String
  midnightTxHash : String
  agentSecret : String
  deriving Repr, DecidableEq

/-- The simulated proof string of `generateZKProof`: the JSON serialisation
of `(proof, type, circuit, timestamp)` with `proof` an HMAC of the secret. -/
def generateZKProof (hmacSha256 : String → String → String) (agentSecret : String)
    (nowMillis : Nat) : String :=
  "\x7b\"proof\":\"" ++ hmacSha256 "midnight-zk-proof" agentSecret
    ++ "\",\"type\":\"zk-snark\",\"circuit\":\"issueCredential\",\"timestamp\":"
    ++ toString nowMillis ++ "\x7d"

/-- The proof string built by `issueCredentialOnChain` (no proof field). -/
def onchainZKProof (nowMillis : Nat) : String :=
  "\x7b\"type\":\"zk-snark\",\"circuit\":\"issueCredential\",\"timestamp\":"
    ++ toString nowMillis ++ "\x7d"

/-- The simulated transaction hash of `simulateMidnightTx`:
`0x` followed by the SHA-256 of `circuit:agentSecret:now`. -/
def simulateMidnightTx (sha256 : String → String) (circuit agentSecret : String)
    (nowMillis : Nat) : String :=
  "0x" ++ sha256 (circuit ++ ":" ++ agentSecret ++ ":" ++ toString nowMillis)

/-- The commitment stored on the fallback path:
SHA-256 of `agentId:agentSecret`. -/
def fallbackCredentialHash (sha256 : String → String) (agentId agentSecret : String) : String :=
  sha256 (agentId ++ ":" ++ agentSecret)

/-- The credential fields chosen by `issueAgentCredential` before the inserts:
the real-contract path when the contract is available and on-chain issuance
succeeds (hash of the bare secret, as computed in `issueCredentialOnChain`),
otherwise the simulated fallback (hash of `agentId:secret`).  Returns
(credentialHash, zkProof, midnightTxHash, useRealContract). -/
def issuanceFields (sha256 : String → String) (hmacSha256 : String → String → String)
    (env : IssueEnv) (agentId agentSecret : String) : String × String × String × Bool :=
  if env.contractAvailable && env.onchainIssueOk then
    (sha256 agentSecret, onchainZKProof env.nowMillis, env.onchainTxHash.getD "pending", true)
  else
    (fallbackCredentialHash sha256 agentId agentSecret,
      generateZKProof hmacSha256 agentSecret env.nowMillis,
      simulateMidnightTx sha256 "issueCredential" agentSecret env.nowMillis, false)

/-- The `credentials` row inserted by `issueAgentCredential`. -/
def issuedCredentialRow (sha256 : String → String) (hmacSha256 : String → String → String)
    (env : IssueEnv) (agentId agentSecret : String) : CredentialRow :=
  let f := issuanceFields sha256 hmacSha256 env agentId agentSecret
  { id := env.credId
    agent_id := agentId
    credential_hash := f.1
    zk_proof := f.2.1
    midnight_tx_hash := f.2.2.1
    status := "active"
    metadata :=
      [("issued_via", if f.2.2.2 then "midnight_contract" else "simulated"),
       ("real_contract", if f.2.2.2 then "true" else "false"),
       ("agent_secret_hint", agentSecret.take 8 ++ "...")] }

/-- The `audit_logs` row inserted by `issueAgentCredential`. -/
def issuedAuditRow (sha256 : String → String) (hmacSha256 : String → String → String)
    (env : IssueEnv) (agentId agentSecret : String) : AuditLogRow :=
  let f := issuanceFields sha256 hmacSha256 env agentId agentSecret
  { agent_id := agentId
    action := "credential_issued"
    resource := if f.2.2.2 then "midnight_contract" else "simulated_contract"
    result := "success"
    midnight_tx_hash := f.2.2.1
    metadata :=
      [("credential_hash", f.1),
       ("real_contract", if f.2.2.2 then "true" else "false"),
       ("timestamp", env.isoNow)] }

/-- State of the relational store as touched by the credential service and
the agents API. -/
structure DbState where
  credentials : List CredentialRow
  audit_logs : List AuditLogRow
  proof_verifications : List ProofVerificationRow
  deriving Repr, DecidableEq

/-- Shallow embedding of `issueAgentCredential`: compute the credential
fields (real contract or simulated fallback), insert the `credentials` row,
insert the `audit_logs` row, and return the secret to the caller.  A failing
insert propagates as an error, leaving whatever rows were written so far. -/
def issueAgentCredential (sha256 : String → String) (hmacSha256 : String → String → String)
    (env : IssueEnv) (st : DbState) (agentId agentSecret : String) :
    DbState × Except String MidnightCredential :=
  let f := issuanceFields sha256 hmacSha256 env agentId agentSecret
  if env.credInsertFails then (st, .error "credentials insert failed")
  else
    let st1 := { st with
      credentials := st.credentials ++ [issuedCredentialRow sha256 hmacSha256 env agentId agentSecret] }
    if env.auditInsertFails then (st1, .error "audit_logs insert failed")
    else
      let st2 := { st1 with
        audit_logs := st1.audit_logs ++ [issuedAuditRow sha256 hmacSha256 env agentId agentSecret] }
      (st2, .ok ⟨f.1, f.2.1, f.2.2.1, agentSecret⟩)

/-- Environment of `verifyAgentAuthorization`: the contract availability
probe, the on-chain verification outcome (`verifyAuthorizationOnChain`
never throws; it reports a verified flag and a transaction hash), and
whether the `proof_verifications` insert fails. -/
structure VerifyEnv where
  contractAvailable : Bool
  onchainVerified : Bool
  onchainTxHash : Option String
  logInsertFails : Bool
  deriving Repr, DecidableEq

/-- Observable outcome of `verifyAgentAuthorization`: the boolean result,
whether the Ledger Adapter (on-chain verification) was invoked, whether the
local fallback hash was computed, and the `proof_verifications` row written. -/
structure VerifyOutcome where
  result : Bool
  ledgerCalled : Bool
  fallbackHashUsed : Bool
  loggedRow : Option ProofVerificationRow
  deriving Repr, DecidableEq

/-- Shallow embedding of `verifyAgentAuthorization`: look the credential up
by id; when missing or not `active` return `false` immediately; otherwise
verify on-chain when the contract is available, else recompute the fallback
hash and compare for exact equality; insert a `proof_verifications` row
recording the result; database errors are caught and yield `false`. -/
def verifyAgentAuthorization (sha256 : String → String) (env : VerifyEnv)
    (db : List CredentialRow) (credentialId agentSecret : String) : VerifyOutcome :=
  match db.find? (fun c => c.id == credentialId) with
  | none => ⟨false, false, false, none⟩
  | some credential =>
      if credential.status ≠ "active" then ⟨false, false, false, none⟩
      else
        let r : Bool × String × Bool × Bool :=
          if env.contractAvailable then
            (env.onchainVerified, env.onchainTxHash.getD "pending", true, false)
          else
            (fallbackCredentialHash sha256 credential.agent_id agentSecret
                == credential.credential_hash,
              "simulated", false, true)
        let row : ProofVerificationRow :=
          { credential_id := credentialId
            verification_result := r.1
            zk_proof := credential.zk_proof
            midnight_tx_hash := r.2.1
            metadata :=
              [("verification_method", if r.2.2.1 then "midnight_contract" else "simulated"),
               ("real_contract", if r.2.2.1 then "true" else "false")] }
        if env.logInsertFails then ⟨false, r.2.2.1, r.2.2.2, none⟩
        else ⟨r.1, r.2.2.1, r.2.2.2, some row⟩

/-! ## Contract ledger and circuits

The compiled circuit bodies are not part of the repository sources; only
the type declaration `contracts/managed/agent-credentials/contract/index.d.cts`
is, which declares exactly the circuits `issueCredential`,
`proveAuthorization` and `reportBlocked` and the ledger counters. -/

/-- The contract's public ledger state (type `Ledger` of the declaration). -/
structure Ledger where
  totalCredentials : Nat
  successfulAuth : Nat
  blockedAttempts : Nat
  lastCredentialCommitment : String
  deriving Repr, DecidableEq

/-- Modelled from the spec: the `issueCredential` circuit body is not under
the sources (only its declaration is); per the spec it records the
commitment and increments `totalCredentials`. -/
def issueCredentialCircuit (st : Ledger) (agentSecret : String) : Ledger :=
  { st with
    lastCredentialCommitment := agentSecret
    totalCredentials := st.totalCredentials + 1 }

/-- Modelled from the spec: the `proveAuthorization` circuit body is not
under the sources; per the spec it asserts that the secret matches the
expected commitment and increments `successfulAuth` on success. -/
def proveAuthorizationCircuit (st : Ledger) (agentSecret expectedCommitment : String) :
    Except String Ledger :=
  if agentSecret = expectedCommitment then
    .ok { st with successfulAuth := st.successfulAuth + 1 }
  else .error "Invalid credential"

/-- Modelled from the spec: the `reportBlocked` circuit body is not under
the sources; per the spec it increments `blockedAttempts`. -/
def reportBlockedCircuit (st : Ledger) : Ledger :=
  { st with blockedAttempts := st.blockedAttempts + 1 }

/-- The circuit names declared by `ImpureCircuits` in `index.d.cts`. -/
def declaredCircuits : List String :=
  ["issueCredential", "proveAuthorization", "reportBlocked"]

/-- Dispatch of a `contract.callTx.<name>(args)` invocation: a declared
circuit runs with the given arguments (an arity mismatch throws, as the
compiled circuit checks its arguments); an undeclared name throws, as
calling a missing member of `callTx` does. -/
def callTx (st : Ledger) (name : String) (args : List String) : Except String Ledger :=
  if name = "issueCredential" then
    match args with
    | [s] => .ok (issueCredentialCircuit st s)
    | _ => .error "issueCredential: wrong arguments"
  else if name = "proveAuthorization" then
    match args with
    | [s, c] => proveAuthorizationCircuit st s c
    | _ => .error "proveAuthorization: wrong arguments"
  else if name = "reportBlocked" then
    match args with
    | [] => .ok (reportBlockedCircuit st)
    | _ => .error "reportBlocked: wrong arguments"
  else .error ("contract.callTx." ++ name ++ " is not a function")

/-- The blocked-attempt logging step of `requestSecretAccess`: it invokes
`contract.callTx.simulateAttack()` and ignores any error of that call. -/
def logBlockedAttempt (st : Ledger) : Ledger :=
  match callTx st "simulateAttack" [] with
  | .ok st2 => st2
  | .error _ => st

/-! ## Secret store (encryptSecret / decryptSecret of the MCP server)

The MCP server encrypts with AES-256 in CBC mode with PKCS7 padding and a
16-byte initialisation vector.  Bytes are modelled as natural numbers and
the keyed AES block permutation is an explicit parameter pair (E, D); the
CBC chaining and the padding are implemented concretely. -/

/-- Byte-wise xor of two equal-length blocks. -/
def zipXor (a b : List Nat) : List Nat := List.zipWith Nat.xor a b

/-- PKCS7 padding to 16-byte blocks: append `n` copies of `n` where
`n = 16 - length % 16` (always between 1 and 16). -/
def pkcs7Pad (msg : List Nat) : List Nat :=
  msg ++ List.replicate (16 - msg.length % 16) (16 - msg.length % 16)

/-- PKCS7 unpadding: read the final byte `n`, check that the last `n` bytes
all equal `n` with `1 ≤ n ≤ 16`, and drop them; anything else is a padding
error. -/
def pkcs7Unpad (msg : List Nat) : Option (List Nat) :=
  match msg.getLast? with
  | none => none
  | some n =>
      if 1 ≤ n ∧ n ≤ 16 ∧ n ≤ msg.length ∧ msg.drop (msg.length - n) = List.replicate n n then
        some (msg.take (msg.length - n))
      else none

/-- Fuelled worker for `chunks16`; the fuel is an upper bound on the list
length, so the exhausted-fuel case is unreachable. -/
def chunks16Go : Nat → List Nat → List (List Nat)
  | _, [] => []
  | 0, _ :: _ => []
  | fuel + 1, x :: xs => ((x :: xs).take 16) :: chunks16Go fuel ((x :: xs).drop 16)

/-- Split a byte string into consecutive 16-byte blocks. -/
def chunks16 (l : List Nat) : List (List Nat) := chunks16Go l.length l

/-- CBC encryption of a block sequence: each plaintext block is xor-ed with
the previous ciphertext block (initially the IV) and passed through the
block cipher `E`. -/
def cbcEncrypt (E : List Nat → List Nat) : List Nat → List (List Nat) → List (List Nat)
  | _, [] => []
  | prev, b :: bs =>
      let c := E (zipXor prev b)
      c :: cbcEncrypt E c bs

/-- CBC decryption of a block sequence with block cipher inverse `D`. -/
def cbcDecrypt (D : List Nat → List Nat) : List Nat → List (List Nat) → List (List Nat)
  | _, [] => []
  | prev, c :: cs => zipXor prev (D c) :: cbcDecrypt D c cs

/-- Embedding of `encryptSecret`: pad the plaintext, CBC-encrypt it under
the vault master key's block cipher `E` with the fresh IV, and store the
concatenated ciphertext. -/
def encryptSecret (E : List Nat → List Nat) (iv value : List Nat) : List Nat :=
  (cbcEncrypt E iv (chunks16 (pkcs7Pad value))).flatten

/-- Embedding of `decryptSecret`: CBC-decrypt the stored ciphertext under
the same master key with the stored IV and remove the padding. -/
def decryptSecret (D : List Nat → List Nat) (iv ct : List Nat) : Option (List Nat) :=
  pkcs7Unpad (cbcDecrypt D iv (chunks16 ct)).flatten

/-! ## Agents HTTP API (app/api/agents/route.ts and app/api/agents/[id]/route.ts) -/

/-- A row of the `agents` table as created by `createAgent` (JSON columns are
modelled as their serialised strings). -/
structure AgentRow where
  id : String
  name : String
  description : Option String
  agent_type : String
  status : String
  public_key : Option String
  metadata : String
  owner_wallet_address : Option String
  capabilities : String
  rate_limit_per_hour : Nat
  credential_expiry_days : Nat
  access_scope : String
  midnight_wallet_address : Option String
  created_at : String
  updated_at : String
  deriving Repr, DecidableEq

/-- Request body of `POST /api/agents` (absent JSON fields are `none`). -/
structure PostBody where
  name : Option String
  description : Option String
  agent_type : Option String
  public_key : Option String
  metadata : Option String
  owner_wallet_address : Option String
  capabilities : Option String
  rate_limit_per_hour : Option Nat
  credential_expiry_days : Option Nat
  access_scope : Option String
  midnight_wallet_address : Option String
  deriving Repr, DecidableEq

/-- JavaScript truthiness test for an optional string (absent, `null` and
the empty string are falsy). -/
def truthy : Option String → Bool
  | none => false
  | some s => s ≠ ""

/-- `value || null` on an optional string field. -/
def orNull (o : Option String) : Option String :=
  match o with
  | some s => if s = "" then none else some s
  | none => none

/-- `value || default` on an optional string field. -/
def orDefault (o : Option String) (d : String) : String :=
  match o with
  | some s => if s = "" then d else s
  | none => d

/-- `value || default` on an optional numeric field (`0` is falsy). -/
def orDefaultNat (o : Option Nat) (d : Nat) : Nat :=
  match o with
  | some n => if n = 0 then d else n
  | none => d

/-- The `agents` row inserted by `createAgent` (lib/db.ts), with its
`||`-defaults; `id`, `created_at`, `updated_at` and the `status` column
default come from the database, here supplied as parameters. -/
def createAgentRow (newId now : String) (body : PostBody) : AgentRow :=
  { id := newId
    name := body.name.getD ""
    description := orNull body.description
    agent_type := orDefault body.agent_type "autonomous"
    status := "active"
    public_key := orNull body.public_key
    metadata := body.metadata.getD "\x7b\x7d"
    owner_wallet_address := orNull body.owner_wallet_address
    capabilities := body.capabilities.getD "[]"
    rate_limit_per_hour := orDefaultNat body.rate_limit_per_hour 100
    credential_expiry_days := orDefaultNat body.credential_expiry_days 365
    access_scope := body.access_scope.getD "\x7b\"secrets\":[],\"resources\":[]\x7d"
    midnight_wallet_address := orNull body.midnight_wallet_address
    created_at := now
    updated_at := now }

/-- An HTTP JSON response of the agents API: status code, optional error
message, and optionally the created/updated agent together with the
issued credential. -/
structure ApiResponse where
  status : Nat
  error : Option String
  agent : Option AgentRow
  midnight_credential : Option MidnightCredential
  deriving Repr, DecidableEq

/-- Environment of the `POST /api/agents` handler: the database-generated
agent id and timestamps, whether the agent insert itself fails, the
generated agent secret, and the issuance environment. -/
structure PostEnv where
  newAgentId : String
  now : String
  agentInsertFails : Bool
  agentSecret : String
  issueEnv : IssueEnv
  deriving Repr, DecidableEq

/-- Full database state seen by the agents API. -/
structure FullDb where
  agents : List AgentRow
  db : DbState
  deriving Repr, DecidableEq

/-- Shallow embedding of `POST /api/agents`: reject a missing name (400) or
missing wallet (401); insert the agent row; then issue the Midnight
credential for it; any thrown error is caught and answered with a 500
`Failed to create agent` response, with no rollback of the inserted rows. -/
def postAgents (sha256 : String → String) (hmacSha256 : String → String → String)
    (env : PostEnv) (st : FullDb) (body : PostBody) : ApiResponse × FullDb :=
  if !truthy body.name then
    (⟨400, some "Agent name is required", none, none⟩, st)
  else if !truthy body.owner_wallet_address then
    (⟨401, some "Wallet connection required", none, none⟩, st)
  else if env.agentInsertFails then
    (⟨500, some "Failed to create agent", none, none⟩, st)
  else
    let agent := createAgentRow env.newAgentId env.now body
    let st1 : FullDb := { st with agents := st.agents ++ [agent] }
    let issued := issueAgentCredential sha256 hmacSha256 env.issueEnv st1.db agent.id env.agentSecret
    let st2 : FullDb := { st1 with db := issued.1 }
    match issued.2 with
    | .ok credential => (⟨201, none, some agent, some credential⟩, st2)
    | .error _ => (⟨500, some "Failed to create agent", none, none⟩, st2)

/-- Request body of `PATCH /api/agents/\x5bid\x5d` (the handler destructures
exactly these five fields; absent and `null` both map to `none`). -/
structure PatchBody where
  name : Option String
  description : Option String
  agent_type : Option String
  status : Option String
  metadata : Option String
  deriving Repr, DecidableEq

/-- The `COALESCE` update of one agent row performed by the PATCH handler's
UPDATE statement: each provided field overwrites, each `NULL` argument
keeps the stored value, and `updated_at` is set to `NOW()`. -/
def applyPatch (now : String) (body : PatchBody) (a : AgentRow) : AgentRow :=
  { a with
    name := body.name.getD a.name
    description := match body.description with
      | some d => some d
      | none => a.description
    agent_type := body.agent_type.getD a.agent_type
    status := body.status.getD a.status
    metadata := body.metadata.getD a.metadata
    updated_at := now }

/-- Shallow embedding of `PATCH /api/agents/\x5bid\x5d`: update every agent
row matching the id; answer 404 when no row matched, otherwise return the
updated row. -/
def patchAgent (now : String) (db : List AgentRow) (id : String) (body : PatchBody) :
    ApiResponse × List AgentRow :=
  (match (db.filter (fun a => a.id = id)).head? with
    | none => ⟨404, some "Agent not found", none, none⟩
    | some a => ⟨200, none, some (applyPatch now body a), none⟩,
   db.map (fun a => if a.id = id then applyPatch now body a else a))

/-! ## Concrete instances used to exercise the model -/

/-- A concrete 64-character lower-case hex string, the shape of a generated
agent secret (32 random bytes, hex encoded). -/
def hex64 : String :=
  "0123456789abcdef0123456789abcdef0123456789abcdef0123456789abcdef"

/-- A stand-in SHA-256 for concrete evaluation. -/
def cSha : String → String := fun _ => "HASH"

/-- A stand-in HMAC-SHA-256 for concrete evaluation. -/
def cHmac : String → String → String := fun _ _ => "HMAC"

/-- A concrete issuance environment running in fallback (simulated) mode
with both inserts succeeding. -/
def c1Env : IssueEnv :=
  { contractAvailable := false
    onchainIssueOk := false
    onchainTxHash := none
    credId := "cred-1"
    nowMillis := 0
    isoNow := "2025-11-17T09:00:00Z"
    credInsertFails := false
    auditInsertFails := false }

/-- A concrete verification environment in fallback mode with the log
insert succeeding. -/
def vEnvSim : VerifyEnv :=
  { contractAvailable := false
    onchainVerified := false
    onchainTxHash := none
    logInsertFails := false }

/-- A concrete MCP environment whose contract verification succeeds. -/
def mcpOkEnv : McpEnv Nat :=
  { proveAuth := fun _ => .ok ()
    github := fun _ _ _ => .ok 7 }

/-- A concrete MCP environment whose contract verification throws. -/
def mcpFailEnv : McpEnv Nat :=
  { proveAuth := fun _ => .error "Failed to verify authorization"
    github := fun _ _ _ => .ok 7 }

/-- A concrete decryption function. -/
def decA : String → String → String := fun _ _ => "token-a"

/-- A second concrete decryption function, yielding a different plaintext. -/
def decB : String → String → String := fun _ _ => "token-b"

/-- A vault holding one secret named `github-api`. -/
def sampleVault : VaultStorage :=
  { secrets := [⟨"secret_1", "github-api", "enc-blob", "iv-hex", "github", "2025-01-01"⟩]
    masterKey := "master-key" }

/-- A vault holding no secrets. -/
def emptyVault : VaultStorage := { secrets := [], masterKey := "master-key" }

/-- Concrete parameters of a `request_secret_access` call. -/
def sampleParams : AccessParams :=
  { secretName := "github-api", agentProof := "proof-x", action := "github_get_user" }

/-- A concrete credential row whose status is `revoked`. -/
def revokedRow : CredentialRow :=
  { id := "cred-9"
    agent_id := "agent-9"
    credential_hash := "HASH"
    zk_proof := "proof"
    midnight_tx_hash := "0xdead"
    status := "revoked"
    metadata := [] }

/-- The initial contract ledger. -/
def ledger0 : Ledger :=
  { totalCredentials := 0, successfulAuth := 0, blockedAttempts := 0
    lastCredentialCommitment := "" }

/-- A concrete POST environment whose credentials insert fails. -/
def postEnvFail : PostEnv :=
  { newAgentId := "agent-1"
    now := "2025-11-17T09:00:00Z"
    agentInsertFails := false
    agentSecret := hex64
    issueEnv := { c1Env with credInsertFails := true } }

/-- A concrete POST body with a name and a wallet address. -/
def samplePostBody : PostBody :=
  { name := some "my-agent"
    description := none
    agent_type := none
    public_key := none
    metadata := none
    owner_wallet_address := some "0xwallet"
    capabilities := none
    rate_limit_per_hour := none
    credential_expiry_days := none
    access_scope := none
    midnight_wallet_address := none }

/-- A concrete stored agent row. -/
def sampleAgent : AgentRow :=
  { id := "agent-1"
    name := "old-name"
    description := some "old-desc"
    agent_type := "autonomous"
    status := "active"
    public_key := some "pk"
    metadata := "\x7b\x7d"
    owner_wallet_address := some "0xwallet"
    capabilities := "[]"
    rate_limit_per_hour := 100
    credential_expiry_days := 365
    access_scope := "\x7b\"secrets\":[],\"resources\":[]\x7d"
    midnight_wallet_address := none
    created_at := "2025-01-01"
    updated_at := "2025-01-01" }

/-- A concrete PATCH body updating only the name. -/
def samplePatchBody : PatchBody :=
  { name := some "new-name", description := none, agent_type := none
    status := none, metadata := none }

/-- An empty database. -/
def emptyFullDb : FullDb := { agents := [], db := ⟨[], [], []⟩ }

/-- An all-zero 16-byte initialisation vector. -/
def iv16 : List Nat := List.replicate 16 0

/-! ## Helper lemmas -/

/-- String append is left-cancellative. -/
theorem strAppendLeftCancel (a b c : String) (h : a ++ b = a ++ c) : b = c := by
  have hd := congrArg String.data h
  simp only [String.data_append] at hd
  have := List.append_cancel_left hd
  cases b; cases c; simp_all

/-- A character of `a` is a character of `a ++ b`. -/
theorem memDataAppendLeft {c : Char} (a b : String) (h : c ∈ a.data) : c ∈ (a ++ b).data := by
  rw [String.data_append]
  exact List.mem_append_left _ h

/-- A character of `b` is a character of `a ++ b`. -/
theorem memDataAppendRight {c : Char} (a b : String) (h : c ∈ b.data) : c ∈ (a ++ b).data := by
  rw [String.data_append]
  exact List.mem_append_right _ h

/-- A string containing a non-hex character differs from any string all of
whose characters are hex digits. -/
theorem neOfNonHex (v w : String) (c : Char) (hc : c ∈ v.data)
    (hhex : ∀ d ∈ w.data, hexChar d = true) (hnc : hexChar c = false) : v ≠ w := by
  intro he
  subst he
  rw [hhex c hc] at hnc
  cases hnc

/-- A successful `requestSecretAccess` response consists exactly of the
success flag and the downstream GitHub result for the found secret. -/
theorem requestSecretAccess_success_shape {α : Type} (env : McpEnv α)
    (dec : String → String → String) (vault : VaultStorage) (p : AccessParams)
    (hs : (requestSecretAccess env dec vault p).resp.success = true) :
    ∃ s me r, vault.secrets.find? (fun x => x.name == p.secretName) = some s ∧
      githubRoute p.action = some me ∧
      env.github (dec s.encryptedValue s.iv) me.1 me.2 = .ok r ∧
      requestSecretAccess env dec vault p =
        ⟨⟨true, some r, none⟩, [("proveAuthorization", [p.agentProof])]⟩ := by
  unfold requestSecretAccess at hs ⊢
  cases hpa : env.proveAuth p.agentProof with
  | error m => rw [hpa] at hs; simp at hs
  | ok u =>
      rw [hpa] at hs
      simp only [] at hs ⊢
      cases hf : vault.secrets.find? (fun x => x.name == p.secretName) with
      | none => rw [hf] at hs; simp [afterAuth] at hs
      | some s =>
          rw [hf] at hs
          simp only [afterAuth] at hs ⊢
          cases hr : githubRoute p.action with
          | none => rw [hr] at hs; simp [runAction] at hs
          | some me =>
              rw [hr] at hs
              simp only [runAction] at hs ⊢
              cases hg : env.github (dec s.encryptedValue s.iv) me.1 me.2 with
              | error msg => rw [hg] at hs; simp at hs
              | ok r => exact ⟨s, me, r, rfl, rfl, hg, rfl⟩

/-- C2: for every `requestSecretAccess` call that succeeds, the decrypted
secret value never appears in the response payload returned to the caller:
the response depends on the decrypted value only through the downstream
GitHub action (noninterference between decryption functions whose action
results agree), and a successful response consists exactly of the success
flag and the downstream action's result, with an empty error field. -/
theorem c2_no_secret_in_success_response {α : Type} (env : McpEnv α)
    (dec₁ dec₂ : String → String → String) (vault : VaultStorage) (p : AccessParams)
    (hOracle : ∀ ev iv m e, env.github (dec₁ ev iv) m e = env.github (dec₂ ev iv) m e) :
    requestSecretAccess env dec₁ vault p = requestSecretAccess env dec₂ vault p ∧
    ((requestSecretAccess env dec₁ vault p).resp.success = true →
      ∃ s me r, vault.secrets.find? (fun x => x.name == p.secretName) = some s ∧
        githubRoute p.action = some me ∧
        env.github (dec₁ s.encryptedValue s.iv) me.1 me.2 = .ok r ∧
        requestSecretAccess env dec₁ vault p =
          ⟨⟨true, some r, none⟩, [("proveAuthorization", [p.agentProof])]⟩) := by
  constructor
  · unfold requestSecretAccess
    cases env.proveAuth p.agentProof with
    | error m => rfl
    | ok u =>
        simp only [afterAuth]
        cases vault.secrets.find? (fun x => x.name == p.secretName) with
        | none => rfl
        | some s =>
            simp only [runAction]
            cases githubRoute p.action with
            | none => rfl
            | some me =>
                simp only []
                rw [hOracle s.encryptedValue s.iv me.1 me.2]
  · exact requestSecretAccess_success_shape env dec₁ vault p

/-- C2 witness: concrete environments evaluating the theorem. -/
theorem c2_no_secret_in_success_response_witness :
    requestSecretAccess mcpOkEnv decA sampleVault sampleParams =
      requestSecretAccess mcpOkEnv decB sampleVault sampleParams ∧
    ((requestSecretAccess mcpOkEnv decA sampleVault sampleParams).resp.success = true →
      ∃ s me r,
        sampleVault.secrets.find? (fun x => x.name == sampleParams.secretName) = some s ∧
        githubRoute sampleParams.action = some me ∧
        mcpOkEnv.github (decA s.encryptedValue s.iv) me.1 me.2 = .ok r ∧
        requestSecretAccess mcpOkEnv decA sampleVault sampleParams =
          ⟨⟨true, some r, none⟩, [("proveAuthorization", [sampleParams.agentProof])]⟩) :=
  c2_no_secret_in_success_response mcpOkEnv decA decB sampleVault sampleParams
    (fun _ _ _ _ => rfl)

/-- C5 counterexample: with a failing contract verification, the MCP server
returns the thrown message as the error field, not the literal code
`UNAUTHORIZED` that the claim requires. -/
theorem c5_counterexample :
    (requestSecretAccess mcpFailEnv decA sampleVault sampleParams).resp.success = false ∧
    (requestSecretAccess mcpFailEnv decA sampleVault sampleParams).resp.error ≠
      some "UNAUTHORIZED" ∧
    (requestSecretAccess mcpFailEnv decA sampleVault sampleParams).resp.error =
      some "Failed to verify authorization" := by
  refine ⟨rfl, ?_, rfl⟩
  decide

/-- C5 amended: when credential verification fails, the response is
`success: false` with the verification failure's thrown message as the
error (not the literal `UNAUTHORIZED`), a blocked-attempt log call is
attempted via a `simulateAttack` circuit invocation, and the response is
independent of the vault contents, so the caller never learns whether the
named secret exists. -/
theorem c5_amended_denied_response {α : Type} (env : McpEnv α)
    (dec : String → String → String) (vault₁ vault₂ : VaultStorage) (p : AccessParams)
    (m : String) (h : env.proveAuth p.agentProof = .error m) :
    requestSecretAccess env dec vault₁ p =
      ⟨⟨false, none, some m⟩,
        [("proveAuthorization", [p.agentProof]), ("simulateAttack", [])]⟩ ∧
    requestSecretAccess env dec vault₁ p = requestSecretAccess env dec vault₂ p := by
  unfold requestSecretAccess
  rw [h]
  exact ⟨rfl, rfl⟩

/-- C5 amended witness: concrete failing verification. -/
theorem c5_amended_denied_response_witness :
    requestSecretAccess mcpFailEnv decA sampleVault sampleParams =
      ⟨⟨false, none, some "Failed to verify authorization"⟩,
        [("proveAuthorization", [sampleParams.agentProof]), ("simulateAttack", [])]⟩ ∧
    requestSecretAccess mcpFailEnv decA sampleVault sampleParams =
      requestSecretAccess mcpFailEnv decA emptyVault sampleParams :=
  c5_amended_denied_response mcpFailEnv decA sampleVault emptyVault sampleParams
    "Failed to verify authorization" rfl

/-- C6 counterexample: with verification succeeding and the secret absent,
the MCP server returns the thrown message `Secret 'github-api' not found in
vault` as the error field, not the literal code `SECRET_NOT_FOUND` that the
claim requires. -/
theorem c6_counterexample :
    (requestSecretAccess mcpOkEnv decA emptyVault sampleParams).resp.success = false ∧
    (requestSecretAccess mcpOkEnv decA emptyVault sampleParams).resp.error ≠
      some "SECRET_NOT_FOUND" ∧
    (requestSecretAccess mcpOkEnv decA emptyVault sampleParams).resp.error =
      some (secretNotFoundMsg "github-api") := by
  refine ⟨rfl, ?_, rfl⟩
  decide

/-- C6 amended: when verification succeeds but the named secret is not in
the vault, the response is `success: false` with the thrown message
`Secret '<name>' not found in vault` as the error (not the literal
`SECRET_NOT_FOUND`), and a blocked-attempt log call is also attempted. -/
theorem c6_amended_not_found_response {α : Type} (env : McpEnv α)
    (dec : String → String → String) (vault : VaultStorage) (p : AccessParams) (u : Unit)
    (hok : env.proveAuth p.agentProof = .ok u)
    (hnone : vault.secrets.find? (fun s => s.name == p.secretName) = none) :
    requestSecretAccess env dec vault p =
      ⟨⟨false, none, some (secretNotFoundMsg p.secretName)⟩,
        [("proveAuthorization", [p.agentProof]), ("simulateAttack", [])]⟩ := by
  unfold requestSecretAccess
  rw [hok, hnone]
  rfl

/-- C6 amended witness: concrete vault without the requested secret. -/
theorem c6_amended_not_found_response_witness :
    requestSecretAccess mcpOkEnv decA emptyVault sampleParams =
      ⟨⟨false, none, some (secretNotFoundMsg sampleParams.secretName)⟩,
        [("proveAuthorization", [sampleParams.agentProof]), ("simulateAttack", [])]⟩ :=
  c6_amended_not_found_response mcpOkEnv decA emptyVault sampleParams () rfl rfl

/-- C7: for every credential id whose credential row is missing or whose
status is not `active`, `verifyAgentAuthorization` returns `false`
immediately: the Ledger Adapter is not invoked, no fallback hash is
computed, and no verification row is written. -/
theorem c7_inactive_returns_false_without_ledger (sha256 : String → String)
    (env : VerifyEnv) (db : List CredentialRow) (credentialId agentSecret : String)
    (h : (db.find? (fun c => c.id == credentialId)).all
      (fun c => c.status != "active") = true) :
    verifyAgentAuthorization sha256 env db credentialId agentSecret =
      ⟨false, false, false, none⟩ := by
  unfold verifyAgentAuthorization
  cases hf : db.find? (fun c => c.id == credentialId) with
  | none => rfl
  | some c =>
      rw [hf] at h
      simp only [Option.all_some, bne_iff_ne, ne_eq] at h
      simp [h]

/-- C7 witness: a concrete revoked credential. -/
theorem c7_inactive_returns_false_without_ledger_witness :
    verifyAgentAuthorization cSha vEnvSim [revokedRow] "cred-9" "any-secret" =
      ⟨false, false, false, none⟩ :=
  c7_inactive_returns_false_without_ledger cSha vEnvSim [revokedRow] "cred-9" "any-secret"
    (by decide)

/-- C10: for every PATCH update, each of the five patchable fields that is
absent or null in the request body retains its stored value, `updated_at`
is set to the update time, every other agent column is unchanged, and rows
with a different id are not modified. -/
theorem c10_patch_coalesce_frame (now : String) (db : List AgentRow) (id : String)
    (body : PatchBody) (a : AgentRow) :
    (body.name = none → (applyPatch now body a).name = a.name) ∧
    (body.description = none → (applyPatch now body a).description = a.description) ∧
    (body.agent_type = none → (applyPatch now body a).agent_type = a.agent_type) ∧
    (body.status = none → (applyPatch now body a).status = a.status) ∧
    (body.metadata = none → (applyPatch now body a).metadata = a.metadata) ∧
    (applyPatch now body a).updated_at = now ∧
    (applyPatch now body a).id = a.id ∧
    (applyPatch now body a).public_key = a.public_key ∧
    (applyPatch now body a).owner_wallet_address = a.owner_wallet_address ∧
    (applyPatch now body a).capabilities = a.capabilities ∧
    (applyPatch now body a).rate_limit_per_hour = a.rate_limit_per_hour ∧
    (applyPatch now body a).credential_expiry_days = a.credential_expiry_days ∧
    (applyPatch now body a).access_scope = a.access_scope ∧
    (applyPatch now body a).midnight_wallet_address = a.midnight_wallet_address ∧
    (applyPatch now body a).created_at = a.created_at ∧
    (∀ b ∈ db, b.id ≠ id → b ∈ (patchAgent now db id body).2) := by
  refine ⟨fun h => by simp [applyPatch, h], fun h => by simp [applyPatch, h],
    fun h => by simp [applyPatch, h], fun h => by simp [applyPatch, h],
    fun h => by simp [applyPatch, h], rfl, rfl, rfl, rfl, rfl, rfl, rfl, rfl, rfl, rfl, ?_⟩
  intro b hb hne
  unfold patchAgent
  simp only []
  exact List.mem_map.mpr ⟨b, hb, by simp [hne]⟩

/-- C10 witness: a concrete patch of only the name. -/
theorem c10_patch_coalesce_frame_witness :
    (applyPatch "2025-06-01" samplePatchBody sampleAgent).description =
      sampleAgent.description ∧
    (applyPatch "2025-06-01" samplePatchBody sampleAgent).updated_at = "2025-06-01" ∧
    (applyPatch "2025-06-01" samplePatchBody sampleAgent).created_at =
      sampleAgent.created_at := by
  have h := c10_patch_coalesce_frame "2025-06-01" [sampleAgent] "other-id"
    samplePatchBody sampleAgent
  exact ⟨h.2.1 rfl, h.2.2.2.2.2.1, h.2.2.2.2.2.2.2.2.2.2.2.2.2.2.1⟩

/-- The credential service never touches the `agents` relation: issuance
only appends `credentials` and `audit_logs` rows. -/
theorem issueAgentCredential_db_growth (sha256 : String → String)
    (hmacSha256 : String → String → String) (env : IssueEnv) (st : DbState)
    (agentId agentSecret : String) :
    ((issueAgentCredential sha256 hmacSha256 env st agentId agentSecret).1.credentials
        = st.credentials ∨ (issueAgentCredential sha256 hmacSha256 env st agentId
          agentSecret).1.credentials = st.credentials
            ++ [issuedCredentialRow sha256 hmacSha256 env agentId agentSecret]) ∧
    ((issueAgentCredential sha256 hmacSha256 env st agentId agentSecret).1.audit_logs
        = st.audit_logs ∨ (issueAgentCredential sha256 hmacSha256 env st agentId
          agentSecret).1.audit_logs = st.audit_logs
            ++ [issuedAuditRow sha256 hmacSha256 env agentId agentSecret]) := by
  unfold issueAgentCredential
  cases hc : env.credInsertFails with
  | true => exact ⟨Or.inl rfl, Or.inl rfl⟩
  | false =>
      cases ha : env.auditInsertFails with
      | true => exact ⟨Or.inr rfl, Or.inl rfl⟩
      | false => exact ⟨Or.inr rfl, Or.inr rfl⟩

/-- C9: when the agent row insert succeeds but credential issuance throws,
`POST /api/agents` answers 500 `Failed to create agent` while the newly
created agent row remains persisted (creation and issuance are not atomic). -/
theorem c9_post_not_atomic (sha256 : String → String)
    (hmacSha256 : String → String → String) (env : PostEnv) (st : FullDb)
    (body : PostBody)
    (hname : truthy body.name = true)
    (hwallet : truthy body.owner_wallet_address = true)
    (hins : env.agentInsertFails = false)
    (hfail : env.issueEnv.credInsertFails = true ∨ env.issueEnv.auditInsertFails = true) :
    (postAgents sha256 hmacSha256 env st body).1.status = 500 ∧
    (postAgents sha256 hmacSha256 env st body).1.error = some "Failed to create agent" ∧
    createAgentRow env.newAgentId env.now body ∈
      (postAgents sha256 hmacSha256 env st body).2.agents := by
  unfold postAgents
  rw [hname, hwallet, hins]
  simp only [Bool.not_true, Bool.false_eq_true, if_false]
  unfold issueAgentCredential
  cases hc : env.issueEnv.credInsertFails with
  | true =>
      simp only [if_pos rfl]
      exact ⟨rfl, rfl, List.mem_append_right _ (List.mem_singleton.mpr rfl)⟩
  | false =>
      have ha : env.issueEnv.auditInsertFails = true := by
        cases hfail with
        | inl h => rw [h] at hc; cases hc
        | inr h => exact h
      rw [ha]
      simp only [Bool.false_eq_true, if_false, if_pos rfl]
      exact ⟨rfl, rfl, List.mem_append_right _ (List.mem_singleton.mpr rfl)⟩

/-- C9 witness: a concrete issuance failure after agent creation. -/
theorem c9_post_not_atomic_witness :
    (postAgents cSha cHmac postEnvFail emptyFullDb samplePostBody).1.status = 500 ∧
    (postAgents cSha cHmac postEnvFail emptyFullDb samplePostBody).1.error =
      some "Failed to create agent" ∧
    createAgentRow postEnvFail.newAgentId postEnvFail.now samplePostBody ∈
      (postAgents cSha cHmac postEnvFail emptyFullDb samplePostBody).2.agents :=
  c9_post_not_atomic cSha cHmac postEnvFail emptyFullDb samplePostBody rfl rfl rfl
    (Or.inl rfl)

/-- C3: in fallback mode, issuance stores the commitment
SHA-256(`agentId:secret`), verification with the same secret against the
stored row succeeds, and verification with any different secret fails
(exact string equality of recomputed hashes), provided the hash has no
collision on the two probed inputs (injectivity of the hash model). -/
theorem c3_fallback_issue_verify_roundtrip (sha256 : String → String)
    (hmacSha256 : String → String → String) (hInj : Function.Injective sha256)
    (ienv : IssueEnv) (venv : VerifyEnv)
    (hi : (ienv.contractAvailable && ienv.onchainIssueOk) = false)
    (hv : venv.contractAvailable = false) (hlog : venv.logInsertFails = false)
    (agentId S S' : String) (hne : S' ≠ S) :
    (issuedCredentialRow sha256 hmacSha256 ienv agentId S).credential_hash =
      sha256 (agentId ++ ":" ++ S) ∧
    (verifyAgentAuthorization sha256 venv
      [issuedCredentialRow sha256 hmacSha256 ienv agentId S]
      (issuedCredentialRow sha256 hmacSha256 ienv agentId S).id S).result = true ∧
    (verifyAgentAuthorization sha256 venv
      [issuedCredentialRow sha256 hmacSha256 ienv agentId S]
      (issuedCredentialRow sha256 hmacSha256 ienv agentId S).id S').result = false := by
  have hrow : issuedCredentialRow sha256 hmacSha256 ienv agentId S =
      { id := ienv.credId
        agent_id := agentId
        credential_hash := fallbackCredentialHash sha256 agentId S
        zk_proof := generateZKProof hmacSha256 S ienv.nowMillis
        midnight_tx_hash := simulateMidnightTx sha256 "issueCredential" S ienv.nowMillis
        status := "active"
        metadata :=
          [("issued_via", "simulated"), ("real_contract", "false"),
           ("agent_secret_hint", S.take 8 ++ "...")] } := by
    unfold issuedCredentialRow issuanceFields
    rw [hi]
    rfl
  rw [hrow]
  refine ⟨rfl, ?_, ?_⟩
  · unfold verifyAgentAuthorization
    simp only [List.find?, beq_self_eq_true, ne_eq]
    rw [hv, hlog]
    simp [fallbackCredentialHash]
  · unfold verifyAgentAuthorization
    simp only [List.find?, beq_self_eq_true, ne_eq]
    rw [hv, hlog]
    have hneq : fallbackCredentialHash sha256 agentId S' ≠
        fallbackCredentialHash sha256 agentId S := by
      intro he
      have harg := hInj he
      exact hne (strAppendLeftCancel (agentId ++ ":") S' S harg)
    simp [hneq]

/-- C3 witness: the identity as an (injective) stand-in hash on concrete
agent id and secrets. -/
theorem c3_fallback_issue_verify_roundtrip_witness :
    (verifyAgentAuthorization id vEnvSim
      [issuedCredentialRow id cHmac c1Env "agent-A" "secret-S"]
      (issuedCredentialRow id cHmac c1Env "agent-A" "secret-S").id "secret-S").result = true ∧
    (verifyAgentAuthorization id vEnvSim
      [issuedCredentialRow id cHmac c1Env "agent-A" "secret-S"]
      (issuedCredentialRow id cHmac c1Env "agent-A" "secret-S").id "wrong").result = false := by
  have h := c3_fallback_issue_verify_roundtrip id cHmac (fun _ _ hx => hx) c1Env vEnvSim
    rfl rfl rfl "agent-A" "secret-S" "wrong" (by decide)
  exact ⟨h.2.1, h.2.2⟩

/-- The opening-brace character of the serialised proof JSON objects. -/
theorem lbrace_mem_generateZKProof (hm : String → String → String) (s : String) (n : Nat) :
    Char.ofNat 123 ∈ (generateZKProof hm s n).data := by
  unfold generateZKProof
  exact memDataAppendLeft _ _ (memDataAppendLeft _ _ (memDataAppendLeft _ _
    (memDataAppendLeft _ _ (by decide))))

/-- The opening-brace character of the on-chain proof JSON object. -/
theorem lbrace_mem_onchainZKProof (n : Nat) :
    Char.ofNat 123 ∈ (onchainZKProof n).data := by
  unfold onchainZKProof
  exact memDataAppendLeft _ _ (memDataAppendLeft _ _ (by decide))

/-- The `x` character of the `0x`-prefixed simulated transaction hash. -/
theorem x_mem_simulateMidnightTx (sha256 : String → String) (c s : String) (n : Nat) :
    ('x' : Char) ∈ (simulateMidnightTx sha256 c s n).data := by
  unfold simulateMidnightTx
  exact memDataAppendLeft _ _ (by decide)

/-- The dot characters of the truncated secret hint. -/
theorem dot_mem_hint (s : String) : ('.' : Char) ∈ (s.take 8 ++ "...").data :=
  memDataAppendRight _ _ (by decide)

/-- C1 counterexample: at a concrete issuance, the credentials row persists
a stored string (the `agent_secret_hint` metadata value) that is not the
credential hash and carries an 8-character segment of the raw generated
agent secret, so more of the secret than its hash appears in the rows. -/
theorem c1_counterexample :
    ∃ v ∈ (issuedCredentialRow cSha cHmac c1Env "agent-1" hex64).storedStrings,
      v ≠ (issuedCredentialRow cSha cHmac c1Env "agent-1" hex64).credential_hash ∧
      sharesSeg8 hex64 v = true := by decide

/-- C1 amended: issuance never persists the full raw secret as any stored
string of the inserted rows — every persisted value is the credential hash,
another hash-derived or constant string, or the 8-character prefix hint —
but the hint `agent_secret_hint` (first 8 characters of the secret) does
persist in the credential metadata, and issuance only ever appends these
two rows.  The hypotheses state that the secret is a hex string and that
the externally produced strings (hash outputs, ids, timestamps, transaction
hashes) differ from it. -/
theorem c1_amended_full_secret_never_stored (sha256 : String → String)
    (hmacSha256 : String → String → String) (env : IssueEnv) (st : DbState)
    (agentId agentSecret : String)
    (hhex : ∀ c ∈ agentSecret.data, hexChar c = true)
    (hsha : ∀ x, sha256 x ≠ agentSecret)
    (hid : agentId ≠ agentSecret)
    (hcred : env.credId ≠ agentSecret)
    (hiso : env.isoNow ≠ agentSecret)
    (htx : ∀ t, env.onchainTxHash = some t → t ≠ agentSecret) :
    ("agent_secret_hint", agentSecret.take 8 ++ "...") ∈
      (issuedCredentialRow sha256 hmacSha256 env agentId agentSecret).metadata ∧
    (∀ v ∈ (issuedCredentialRow sha256 hmacSha256 env agentId agentSecret).storedStrings,
      v ≠ agentSecret) ∧
    (∀ v ∈ (issuedAuditRow sha256 hmacSha256 env agentId agentSecret).storedStrings,
      v ≠ agentSecret) ∧
    (∀ r ∈ (issueAgentCredential sha256 hmacSha256 env st agentId agentSecret).1.credentials,
      r ∈ st.credentials ∨ r = issuedCredentialRow sha256 hmacSha256 env agentId agentSecret) ∧
    (∀ r ∈ (issueAgentCredential sha256 hmacSha256 env st agentId agentSecret).1.audit_logs,
      r ∈ st.audit_logs ∨ r = issuedAuditRow sha256 hmacSha256 env agentId agentSecret) := by
  have hbrace : hexChar (Char.ofNat 123) = false := by decide
  have hx : hexChar 'x' = false := by decide
  have hdot : hexChar '.' = false := by decide
  have hund : hexChar '_' = false := by decide
  have htc : hexChar 't' = false := by decide
  have hsc : hexChar 's' = false := by decide
  have hlc : hexChar 'l' = false := by decide
  have hvc : hexChar 'v' = false := by decide
  have hpc : hexChar 'p' = false := by decide
  refine ⟨by simp [issuedCredentialRow], ?_, ?_, ?_, ?_⟩
  · intro v hv
    unfold CredentialRow.storedStrings issuedCredentialRow issuanceFields at hv
    cases hmode : (env.contractAvailable && env.onchainIssueOk) with
    | true =>
        rw [hmode] at hv
        simp at hv
        rcases hv with h | h | h | h | h | h | h | h | h | h | h | h
        · rw [h]; exact hcred
        · rw [h]; exact hid
        · rw [h]; exact hsha _
        · rw [h]; exact neOfNonHex _ _ _ (lbrace_mem_onchainZKProof env.nowMillis) hhex hbrace
        · rw [h]
          cases honc : env.onchainTxHash with
          | none => exact neOfNonHex _ _ 'p' (by decide) hhex hpc
          | some t => exact htx t honc
        · rw [h]; exact neOfNonHex _ _ 'v' (by decide) hhex hvc
        · rw [h]; exact neOfNonHex _ _ '_' (by decide) hhex hund
        · rw [h]; exact neOfNonHex _ _ '_' (by decide) hhex hund
        · rw [h]; exact neOfNonHex _ _ '_' (by decide) hhex hund
        · rw [h]; exact neOfNonHex _ _ '_' (by decide) hhex hund
        · rw [h]; exact neOfNonHex _ _ 't' (by decide) hhex htc
        · rw [h]; exact neOfNonHex _ _ '.' (dot_mem_hint agentSecret) hhex hdot
    | false =>
        rw [hmode] at hv
        simp at hv
        rcases hv with h | h | h | h | h | h | h | h | h | h | h | h
        · rw [h]; exact hcred
        · rw [h]; exact hid
        · rw [h]; exact hsha _
        · rw [h]
          exact neOfNonHex _ _ _ (lbrace_mem_generateZKProof hmacSha256 agentSecret
            env.nowMillis) hhex hbrace
        · rw [h]
          exact neOfNonHex _ _ 'x'
            (x_mem_simulateMidnightTx sha256 "issueCredential" agentSecret env.nowMillis)
            hhex hx
        · rw [h]; exact neOfNonHex _ _ 'v' (by decide) hhex hvc
        · rw [h]; exact neOfNonHex _ _ '_' (by decide) hhex hund
        · rw [h]; exact neOfNonHex _ _ '_' (by decide) hhex hund
        · rw [h]; exact neOfNonHex _ _ '_' (by decide) hhex hund
        · rw [h]; exact neOfNonHex _ _ 's' (by decide) hhex hsc
        · rw [h]; exact neOfNonHex _ _ 'l' (by decide) hhex hlc
        · rw [h]; exact neOfNonHex _ _ '.' (dot_mem_hint agentSecret) hhex hdot
  · intro v hv
    unfold AuditLogRow.storedStrings issuedAuditRow issuanceFields at hv
    cases hmode : (env.contractAvailable && env.onchainIssueOk) with
    | true =>
        rw [hmode] at hv
        simp at hv
        rcases hv with h | h | h | h | h | h | h | h | h | h | h
        · rw [h]; exact hid
        · rw [h]; exact neOfNonHex _ _ '_' (by decide) hhex hund
        · rw [h]; exact neOfNonHex _ _ '_' (by decide) hhex hund
        · rw [h]; exact neOfNonHex _ _ 's' (by decide) hhex hsc
        · rw [h]
          cases honc : env.onchainTxHash with
          | none => exact neOfNonHex _ _ 'p' (by decide) hhex hpc
          | some t => exact htx t honc
        · rw [h]; exact neOfNonHex _ _ '_' (by decide) hhex hund
        · rw [h]; exact neOfNonHex _ _ '_' (by decide) hhex hund
        · rw [h]; exact neOfNonHex _ _ 't' (by decide) hhex htc
        · rw [h]; exact hsha _
        · rw [h]; exact neOfNonHex _ _ 't' (by decide) hhex htc
        · rw [h]; exact hiso
    | false =>
        rw [hmode] at hv
        simp at hv
        rcases hv with h | h | h | h | h | h | h | h | h | h | h
        · rw [h]; exact hid
        · rw [h]; exact neOfNonHex _ _ '_' (by decide) hhex hund
        · rw [h]; exact neOfNonHex _ _ '_' (by decide) hhex hund
        · rw [h]; exact neOfNonHex _ _ 's' (by decide) hhex hsc
        · rw [h]
          exact neOfNonHex _ _ 'x'
            (x_mem_simulateMidnightTx sha256 "issueCredential" agentSecret env.nowMillis)
            hhex hx
        · rw [h]; exact neOfNonHex _ _ '_' (by decide) hhex hund
        · rw [h]; exact neOfNonHex _ _ '_' (by decide) hhex hund
        · rw [h]; exact neOfNonHex _ _ 't' (by decide) hhex htc
        · rw [h]; exact hsha _
        · rw [h]; exact neOfNonHex _ _ 'l' (by decide) hhex hlc
        · rw [h]; exact hiso
  · intro r hr
    unfold issueAgentCredential at hr
    cases hc : env.credInsertFails with
    | true => rw [hc] at hr; simp at hr; exact Or.inl hr
    | false =>
        rw [hc] at hr
        cases ha : env.auditInsertFails with
        | true => rw [ha] at hr; simp at hr; tauto
        | false => rw [ha] at hr; simp at hr; tauto
  · intro r hr
    unfold issueAgentCredential at hr
    cases hc : env.credInsertFails with
    | true => rw [hc] at hr; simp at hr; exact Or.inl hr
    | false =>
        rw [hc] at hr
        cases ha : env.auditInsertFails with
        | true => rw [ha] at hr; simp at hr; exact Or.inl hr
        | false => rw [ha] at hr; simp at hr; tauto

/-- C1 amended witness: concrete instantiation with a hex secret — the
inserted row carries the hint pair, and its stored credential hash differs
from the raw secret. -/
theorem c1_amended_full_secret_never_stored_witness :
    ("agent_secret_hint", hex64.take 8 ++ "...") ∈
      (issuedCredentialRow cSha cHmac c1Env "agent-1" hex64).metadata ∧
    ("HASH" : String) ≠ hex64 := by
  have h := c1_amended_full_secret_never_stored cSha cHmac c1Env ⟨[], [], []⟩ "agent-1" hex64
    (by decide) (fun _ => (by decide : ("HASH" : String) ≠ hex64)) (by decide) (by decide)
    (by decide)
    (fun t ht => nomatch ht)
  exact ⟨h.1, h.2.1 "HASH" (by decide)⟩

/-- C4 (documenting the code bug): the blocked path of `requestSecretAccess`
invokes a circuit named `simulateAttack`, which is not among the circuits
declared by the compiled contract, so the ignored-error logging step leaves
the ledger — in particular `blockedAttempts` — unchanged, contradicting the
claim that every blocked attempt increments the counter by exactly 1.  The
remaining conjuncts verify the claim's circuit-level part: `reportBlocked`
increments `blockedAttempts` by exactly 1 without touching `successfulAuth`,
and neither `issueCredential` nor a successful `proveAuthorization` changes
`blockedAttempts`. -/
theorem c4_blocked_attempt_not_counted {α : Type} (env : McpEnv α)
    (dec : String → String → String) (vault : VaultStorage) (p : AccessParams)
    (m : String) (st : Ledger) (h : env.proveAuth p.agentProof = .error m) :
    ("simulateAttack", ([] : List String)) ∈ (requestSecretAccess env dec vault p).invoked ∧
    "simulateAttack" ∉ declaredCircuits ∧
    logBlockedAttempt st = st ∧
    (reportBlockedCircuit st).blockedAttempts = st.blockedAttempts + 1 ∧
    (reportBlockedCircuit st).successfulAuth = st.successfulAuth ∧
    (∀ s, (issueCredentialCircuit st s).blockedAttempts = st.blockedAttempts) ∧
    (∀ s c st2, proveAuthorizationCircuit st s c = .ok st2 →
      st2.blockedAttempts = st.blockedAttempts) := by
  refine ⟨?_, by decide, ?_, rfl, rfl, fun s => rfl, ?_⟩
  · unfold requestSecretAccess
    rw [h]
    simp
  · unfold logBlockedAttempt callTx
    simp
  · intro s c st2 h2
    unfold proveAuthorizationCircuit at h2
    by_cases hsc : s = c
    · rw [if_pos hsc] at h2
      cases h2
      rfl
    · rw [if_neg hsc] at h2
      cases h2

/-- C4 witness: a concrete blocked request against the initial ledger. -/
theorem c4_blocked_attempt_not_counted_witness :
    ("simulateAttack", ([] : List String)) ∈
      (requestSecretAccess mcpFailEnv decA sampleVault sampleParams).invoked ∧
    logBlockedAttempt ledger0 = ledger0 ∧
    (reportBlockedCircuit ledger0).blockedAttempts = ledger0.blockedAttempts + 1 := by
  have h := c4_blocked_attempt_not_counted mcpFailEnv decA sampleVault sampleParams
    "Failed to verify authorization" ledger0 rfl
  exact ⟨h.1, h.2.2.1, h.2.2.2.1⟩

/-- Xor of a value twice cancels. -/
theorem xorCancel (x y : Nat) : Nat.xor x (Nat.xor x y) = y := by
  rw [show Nat.xor x (Nat.xor x y) = x ^^^ (x ^^^ y) from rfl, ← Nat.xor_assoc,
    Nat.xor_self, Nat.zero_xor]

/-- Block-wise xor with the same block twice cancels. -/
theorem zipXor_zipXor (a b : List Nat) (h : b.length ≤ a.length) :
    zipXor a (zipXor a b) = b := by
  unfold zipXor
  induction b generalizing a with
  | nil => simp
  | cons y ys ih =>
      cases a with
      | nil => simp at h
      | cons x xs =>
          simp only [List.zipWith, xorCancel]
          rw [ih xs (by simpa using h)]

/-- The fuel of `chunks16Go` is irrelevant above the list length. -/
theorem chunks16Go_congr : ∀ (f₁ f₂ : Nat) (l : List Nat), l.length ≤ f₁ → l.length ≤ f₂ →
    chunks16Go f₁ l = chunks16Go f₂ l := by
  intro f₁
  induction f₁ with
  | zero =>
      intro f₂ l h1 _
      have hl : l = [] := List.length_eq_zero.mp (Nat.le_zero.mp h1)
      subst hl
      cases f₂ <;> rfl
  | succ n ih =>
      intro f₂ l h1 h2
      cases l with
      | nil => cases f₂ <;> rfl
      | cons x xs =>
          cases f₂ with
          | zero => simp at h2
          | succ m =>
              simp only [chunks16Go]
              congr 1
              apply ih
              · simp only [List.length_drop, List.length_cons]
                simp only [List.length_cons] at h1
                omega
              · simp only [List.length_drop, List.length_cons]
                simp only [List.length_cons] at h2
                omega

/-- Unfolding equation of `chunks16` on a non-empty list. -/
theorem chunks16_cons (x : Nat) (xs : List Nat) :
    chunks16 (x :: xs) = ((x :: xs).take 16) :: chunks16 ((x :: xs).drop 16) := by
  unfold chunks16
  simp only [List.length_cons, chunks16Go]
  congr 1
  apply chunks16Go_congr
  · simp only [List.length_drop, List.length_cons]
    omega
  · exact Nat.le_refl _

/-- Splitting into 16-byte blocks and flattening gives the list back. -/
theorem chunks16_flatten : ∀ (l : List Nat), (chunks16 l).flatten = l
  | [] => rfl
  | x :: xs => by
      rw [chunks16_cons]
      rw [List.flatten_cons]
      rw [chunks16_flatten ((x :: xs).drop 16)]
      exact List.take_append_drop 16 (x :: xs)
termination_by l => l.length
decreasing_by
  simp only [List.length_drop, List.length_cons]
  omega

/-- When the length is a multiple of 16, every block of `chunks16` has
length exactly 16. -/
theorem mem_chunks16_length : ∀ (l : List Nat), 16 ∣ l.length →
    ∀ b ∈ chunks16 l, b.length = 16
  | [] => by intro _ b hb; cases hb
  | x :: xs => by
      intro hdvd b hb
      have hlen : 16 ≤ (x :: xs).length := by
        rcases hdvd with ⟨k, hk⟩
        cases k with
        | zero => simp at hk
        | succ k' =>
            rw [hk]
            omega
      rw [chunks16_cons] at hb
      rcases List.mem_cons.mp hb with h | h
      · rw [h, List.length_take]
        omega
      · refine mem_chunks16_length ((x :: xs).drop 16) ?_ b h
        rw [List.length_drop]
        exact Nat.dvd_sub' hdvd (Nat.dvd_refl 16)
termination_by l => l.length
decreasing_by
  simp only [List.length_drop, List.length_cons]
  omega

/-- Flattening blocks of length 16 and re-chunking gives the blocks back. -/
theorem chunks16_of_flatten : ∀ (cs : List (List Nat)), (∀ b ∈ cs, b.length = 16) →
    chunks16 cs.flatten = cs := by
  intro cs
  induction cs with
  | nil => intro _; rfl
  | cons c cs' ih =>
      intro h
      have hc : c.length = 16 := h c (List.mem_cons_self _ _)
      rw [List.flatten_cons]
      cases c with
      | nil => simp at hc
      | cons y ys =>
          rw [show ((y :: ys) ++ cs'.flatten) = y :: (ys ++ cs'.flatten) from rfl]
          rw [chunks16_cons]
          rw [show (y :: (ys ++ cs'.flatten)) = ((y :: ys) ++ cs'.flatten) from rfl]
          rw [List.take_left' hc, List.drop_left' hc]
          rw [ih (fun b hb => h b (List.mem_cons_of_mem _ hb))]

/-- The PKCS7 padding amount is at least 1. -/
theorem pkcs7_padLen_pos (m : List Nat) : 1 ≤ 16 - m.length % 16 := by
  have := Nat.mod_lt m.length (show 0 < 16 by decide)
  omega

/-- Length of a PKCS7-padded message. -/
theorem pkcs7Pad_length (m : List Nat) :
    (pkcs7Pad m).length = m.length + (16 - m.length % 16) := by
  simp [pkcs7Pad]

/-- A PKCS7-padded message has a length divisible by 16. -/
theorem pkcs7Pad_length_dvd (m : List Nat) : 16 ∣ (pkcs7Pad m).length := by
  rw [Nat.dvd_iff_mod_eq_zero, pkcs7Pad_length]
  omega

/-- PKCS7 unpadding inverts PKCS7 padding. -/
theorem pkcs7Unpad_pkcs7Pad (m : List Nat) : pkcs7Unpad (pkcs7Pad m) = some m := by
  have hpos : 1 ≤ 16 - m.length % 16 := pkcs7_padLen_pos m
  have hle : 16 - m.length % 16 ≤ 16 := by omega
  have hlen : (pkcs7Pad m).length = m.length + (16 - m.length % 16) := pkcs7Pad_length m
  have hlast : (pkcs7Pad m).getLast? = some (16 - m.length % 16) := by
    unfold pkcs7Pad
    rw [List.getLast?_append_of_ne_nil _ (by
      intro he
      have := congrArg List.length he
      simp at this
      omega)]
    rw [List.getLast?_replicate]
    rw [if_neg (by omega)]
  unfold pkcs7Unpad
  rw [hlast]
  simp only []
  rw [if_pos ?_]
  · have h1 : (pkcs7Pad m).length - (16 - m.length % 16) = m.length := by omega
    rw [h1]
    unfold pkcs7Pad
    exact congrArg some (List.take_left' rfl)
  · refine ⟨hpos, hle, ?_, ?_⟩
    · omega
    · have h1 : (pkcs7Pad m).length - (16 - m.length % 16) = m.length := by omega
      rw [h1]
      unfold pkcs7Pad
      exact List.drop_left' rfl

/-- Unfolding equation of `cbcEncrypt` on a non-empty block list. -/
theorem cbcEncrypt_cons (E : List Nat → List Nat) (prev b : List Nat)
    (bs : List (List Nat)) :
    cbcEncrypt E prev (b :: bs) =
      E (zipXor prev b) :: cbcEncrypt E (E (zipXor prev b)) bs := rfl

/-- Unfolding equation of `cbcDecrypt` on a non-empty block list. -/
theorem cbcDecrypt_cons (D : List Nat → List Nat) (prev c : List Nat)
    (cs : List (List Nat)) :
    cbcDecrypt D prev (c :: cs) = zipXor prev (D c) :: cbcDecrypt D c cs := rfl

/-- Every ciphertext block produced by CBC encryption of 16-byte blocks
under a 16-byte IV has length 16. -/
theorem cbcEncrypt_length (E : List Nat → List Nat)
    (hElen : ∀ b, b.length = 16 → (E b).length = 16) :
    ∀ (bs : List (List Nat)) (iv : List Nat), iv.length = 16 →
      (∀ b ∈ bs, b.length = 16) → ∀ c ∈ cbcEncrypt E iv bs, c.length = 16 := by
  intro bs
  induction bs with
  | nil => intro iv _ _ c hc; cases hc
  | cons b bs' ih =>
      intro iv hiv hall c hc
      rw [cbcEncrypt_cons] at hc
      have hb : b.length = 16 := hall b (List.mem_cons_self _ _)
      have hzl : (zipXor iv b).length = 16 := by
        simp [zipXor, hiv, hb]
      have hc16 : (E (zipXor iv b)).length = 16 := hElen _ hzl
      rcases List.mem_cons.mp hc with h | h
      · rw [h]; exact hc16
      · exact ih (E (zipXor iv b)) hc16 (fun x hx => hall x (List.mem_cons_of_mem _ hx)) c h

/-- CBC decryption inverts CBC encryption block-wise, given the block
cipher inverse on 16-byte blocks. -/
theorem cbcDecrypt_cbcEncrypt (E D : List Nat → List Nat)
    (hED : ∀ b, b.length = 16 → D (E b) = b)
    (hElen : ∀ b, b.length = 16 → (E b).length = 16) :
    ∀ (bs : List (List Nat)) (iv : List Nat), iv.length = 16 →
      (∀ b ∈ bs, b.length = 16) → cbcDecrypt D iv (cbcEncrypt E iv bs) = bs := by
  intro bs
  induction bs with
  | nil => intro iv _ _; rfl
  | cons b bs' ih =>
      intro iv hiv hall
      rw [cbcEncrypt_cons, cbcDecrypt_cons]
      have hb : b.length = 16 := hall b (List.mem_cons_self _ _)
      have hzl : (zipXor iv b).length = 16 := by
        simp [zipXor, hiv, hb]
      rw [hED _ hzl]
      rw [zipXor_zipXor iv b (by omega)]
      rw [ih (E (zipXor iv b)) (hElen _ hzl) (fun x hx => hall x (List.mem_cons_of_mem _ hx))]

/-- C8: decrypting the stored ciphertext with the stored IV under the same
vault master key returns the original secret: `decrypt(encrypt(s)) == s`,
for any keyed block cipher pair (E, D) that is inverse on 16-byte blocks
(the AES-256 permutation of the master key). -/
theorem c8_decrypt_encrypt_roundtrip (E D : List Nat → List Nat) (iv value : List Nat)
    (hED : ∀ b, b.length = 16 → D (E b) = b)
    (hElen : ∀ b, b.length = 16 → (E b).length = 16)
    (hiv : iv.length = 16) :
    decryptSecret D iv (encryptSecret E iv value) = some value := by
  unfold encryptSecret decryptSecret
  have hpadall : ∀ b ∈ chunks16 (pkcs7Pad value), b.length = 16 :=
    mem_chunks16_length _ (pkcs7Pad_length_dvd value)
  have hctall : ∀ c ∈ cbcEncrypt E iv (chunks16 (pkcs7Pad value)), c.length = 16 :=
    cbcEncrypt_length E hElen _ iv hiv hpadall
  rw [chunks16_of_flatten _ hctall]
  rw [cbcDecrypt_cbcEncrypt E D hED hElen _ iv hiv hpadall]
  rw [chunks16_flatten]
  exact pkcs7Unpad_pkcs7Pad value

/-- C8 witness: the identity block cipher on a concrete 3-byte secret. -/
theorem c8_decrypt_encrypt_roundtrip_witness :
    decryptSecret (fun b => b) iv16 (encryptSecret (fun b => b) iv16 [1, 2, 3]) =
      some [1, 2, 3] :=
  c8_decrypt_encrypt_roundtrip (fun b => b) (fun b => b) iv16 [1, 2, 3]
    (fun _ _ => rfl) (fun _ h => h) (by decide)

end AgentVault
